import Mathlib

/-!
# Verification of the screen-recorder backend's coordination core

Shallow embedding of the recording pipeline of this repository:
`RedisService` (distributed sequencer + finalization lock),
`RecordingService` (chunk store, validation, finalize workflow),
`FfmpegService` (merge engine), `LocalStorageService` (artifact store),
and `RecordingGateway` (transport handlers for start/chunk/stop/disconnect).

Modelling conventions:
* Redis keys for a `recordId` become fields of an explicit state `Sys`
  (counter, lock flag, started-at marker, chunk metadata).  `INCR` is
  atomic in Redis, so concurrent sequencer calls are modelled by their
  linearization: iterated calls on the shared state.
* The filesystem temp directory of a recording is a list of
  (filename, bytes) entries; `fs.promises.writeFile` overwrites.
* JavaScript string operations used by the code (`toString`,
  `padStart`, default `Array.prototype.sort`, `startsWith`, `endsWith`)
  are modelled on the character lists of Lean strings, with the JS
  code-unit lexicographic comparison written out explicitly (all the
  characters involved are ASCII).
* Fallible external effects are controlled by an `Env` oracle:
  reachability of Redis on the chunk ingestion path (`redisUp`),
  success of the ffmpeg concat process (`mergeOk`) and of the artifact
  store save (`storageOk`), plus the `CLEANUP_CHUNKS` configuration
  flag and the current wall clock.  Redis is assumed reachable during
  finalization; the only claim about store outages concerns the chunk
  ingestion path.
* Handlers return an `Outcome`: the final state, the list of observable
  actions (socket emissions, notifications, merge/cleanup effects) in
  order, and `err = some m` when the handler re-threw an exception.
-/

/-! ## JavaScript string primitives -/

/-- Decimal digit character, `'0' + n` for `n < 10`. -/
def digitChar (n : Nat) : Char := Char.ofNat (48 + n)

/-- Fuel-driven decimal digit list (most significant first), the digits
produced by JavaScript `Number.prototype.toString` on a natural number. -/
def natDigitsAux : Nat → Nat → List Char
  | 0, _ => []
  | fuel+1, n =>
    if n < 10 then [digitChar n]
    else natDigitsAux fuel (n / 10) ++ [digitChar (n % 10)]

/-- `n.toString()` for a natural number. -/
def natToString (n : Nat) : String := ⟨natDigitsAux (n+1) n⟩

/-- JavaScript `String.prototype.padStart(len, c)`. -/
def padStart (s : String) (len : Nat) (c : Char) : String :=
  ⟨List.replicate (len - s.data.length) c ++ s.data⟩

/-- JS code-unit lexicographic strict comparison on character lists. -/
def charsLt : List Char → List Char → Bool
  | [], [] => false
  | [], _ :: _ => true
  | _ :: _, [] => false
  | a :: as, b :: bs =>
    if a < b then true else if b < a then false else charsLt as bs

/-- JavaScript `a < b` on strings. -/
def strLt (a b : String) : Bool := charsLt a.data b.data

/-- The ascending order used to model the default JS `Array.prototype.sort`. -/
def strLeB (a b : String) : Bool := !(strLt b a)

/-- `pat` is a prefix of the second list. -/
def listStartsWith : List Char → List Char → Bool
  | [], _ => true
  | _ :: _, [] => false
  | a :: as, b :: bs => decide (a = b) && listStartsWith as bs

/-- JavaScript `s.startsWith(pat)`. -/
def strStartsWith (s pat : String) : Bool := listStartsWith pat.data s.data

/-- JavaScript `s.endsWith(pat)`. -/
def strEndsWith (s pat : String) : Bool :=
  listStartsWith pat.data.reverse s.data.reverse

/-- Insert into a sorted list, keeping stability (ties keep the existing
element first), as the stable JS sort does. -/
def insertSorted (le : α → α → Bool) (a : α) : List α → List α
  | [] => [a]
  | b :: bs => if le a b then a :: b :: bs else b :: insertSorted le a bs

/-- Stable sort modelling `Array.prototype.sort` with an ascending
string comparison. -/
def sortBy (le : α → α → Bool) : List α → List α
  | [] => []
  | a :: as => insertSorted le a (sortBy le as)

/-! ## Data model -/

/-- File contents, abstracted to a byte list. -/
abbrev Bytes := List Nat

/-- One entry of the gateway's in-process `activeRecordings` map. -/
structure ActiveRec where
  recordId : String
  startedAt : Nat
  lastChunkAt : Nat
deriving DecidableEq, Repr

/-- The shared and local state touched by the recording pipeline.

Redis keys `recording:{rid}:chunk_index`, `recording:{rid}:finalizing`,
`recording:{rid}:started_at` and `recording:{rid}:chunk:{i}:meta` become
the fields `counter`, `lock`, `startedAt` and `chunkMeta`; `files` is the
per-recording temp directory (`none` = directory absent), `stored` the
artifact store keyed by storage key, `active` the gateway's local
`activeRecordings` map keyed by socket client id. -/
structure Sys where
  counter : String → Option Nat
  lock : String → Bool
  startedAt : String → Option Nat
  chunkMeta : String → Nat → Option Nat
  files : String → Option (List (String × Bytes))
  stored : String → Option Bytes
  active : String → Option ActiveRec

/-- Outcome oracle for the external effects of one scenario. -/
structure Env where
  redisUp : Bool
  mergeOk : Bool
  storageOk : Bool
  cleanupChunks : Bool
  now : Nat
deriving DecidableEq, Repr

/-- Observable actions of a handler, in execution order. -/
inductive Act where
  | lockTried (rid : String) (ok : Bool)
  | lockReleased (rid : String)
  | dataDeleted (rid : String)
  | validateRan (rid : String)
  | mergeRan (rid : String)
  | artifactSaved (rid : String) (key : String)
  | cleanupRan (rid : String)
  | emitStarted (rid : String)
  | emitChunkAck (rid : String) (index : Nat)
  | emitChunkError (rid : String)
  | emitFinished (rid : String) (alreadyProcessed : Bool)
  | notifyRecordingError (rid : String) (missing : Option (List Nat × Nat))
  | notifyRecordingReady (rid : String)
deriving DecidableEq, Repr

/-- Result of running one handler: final state, trace of observable
actions, and the exception the handler re-threw, if any. -/
structure Outcome where
  state : Sys
  trace : List Act
  err : Option String

/-- Result shape of `RecordingService.validateChunks`. -/
structure ValidationResult where
  valid : Bool
  missingChunks : List Nat
  totalChunks : Nat
deriving DecidableEq, Repr

/-! ## RedisService -/

namespace RedisService

/-- `getNextChunkIndex`: Redis `INCR` on `recording:{rid}:chunk_index`
(missing key behaves as 0), minus one for the 0-based index. -/
def getNextChunkIndex (s : Sys) (rid : String) : Nat × Sys :=
  let v := (s.counter rid).getD 0 + 1
  (v - 1, { s with counter := fun k => if k = rid then some v else s.counter k })

/-- `getChunkCount`: `GET` of the counter key, `0` when absent. -/
def getChunkCount (s : Sys) (rid : String) : Nat :=
  (s.counter rid).getD 0

/-- `setChunkMetadata` (the stored JSON is abstracted to the size). -/
def setChunkMetadata (s : Sys) (rid : String) (i : Nat) (size : Nat) : Sys :=
  { s with chunkMeta := fun k =>
      if k = rid then fun j => if j = i then some size else s.chunkMeta k j
      else s.chunkMeta k }

/-- `deleteRecordingData`: deletes the counter key, all chunk metadata,
the finalization lock key and the started-at key. -/
def deleteRecordingData (s : Sys) (rid : String) : Sys :=
  { s with
      counter := fun k => if k = rid then none else s.counter k
      chunkMeta := fun k => if k = rid then fun _ => none else s.chunkMeta k
      lock := fun k => if k = rid then false else s.lock k
      startedAt := fun k => if k = rid then none else s.startedAt k }

/-- `acquireFinalizationLock`: `SET key 1 EX 30 NX` — succeeds iff the
key is absent.  The 30s TTL bounds recovery after a crash; wall-clock
expiry itself is outside this model. -/
def acquireFinalizationLock (s : Sys) (rid : String) : Bool × Sys :=
  if s.lock rid then (false, s)
  else (true, { s with lock := fun k => if k = rid then true else s.lock k })

/-- `releaseFinalizationLock`: unconditional `DEL` of the lock key. -/
def releaseFinalizationLock (s : Sys) (rid : String) : Sys :=
  { s with lock := fun k => if k = rid then false else s.lock k }

end RedisService

/-! ## Chunk naming and the ffmpeg merge engine -/

/-- The chunk filename built in `RecordingService.saveChunk` and
`validateChunks`: `chunk-${index.toString().padStart(3, '0')}.webm`. -/
def chunkFilename (i : Nat) : String :=
  "chunk-" ++ padStart (natToString i) 3 '0' ++ ".webm"

/-- The filter of `FfmpegService.getChunkFiles`:
`file.startsWith('chunk-') && file.endsWith('.webm')`. -/
def isChunkFile (name : String) : Bool :=
  strStartsWith name "chunk-" && strEndsWith name ".webm"

namespace FfmpegService

/-- `getChunkFiles`: list the directory, keep chunk files, sort by name
(JS default lexicographic sort).  A missing directory yields `[]`. -/
def getChunkFiles (dir : List (String × Bytes)) : List String :=
  sortBy strLeB ((dir.map (fun e => e.1)).filter isChunkFile)

/-- Read a file of the directory by name (used for the concat inputs). -/
def readFile (dir : List (String × Bytes)) (name : String) : Bytes :=
  (((dir.find? (fun e => decide (e.1 = name)))).map (fun e => e.2)).getD []

/-- `fs.promises.writeFile`: overwrite an existing entry or append. -/
def fsWrite (dir : List (String × Bytes)) (name : String) (bytes : Bytes) :
    List (String × Bytes) :=
  if dir.any (fun e => decide (e.1 = name)) then
    dir.map (fun e => if e.1 = name then (name, bytes) else e)
  else dir ++ [(name, bytes)]

/-- `mergeChunks`: collect and sort the chunk files, fail when none are
found, then run the ffmpeg concat demuxer with `-c copy`, whose output
is the concatenation of the inputs in list order.  The `concat-list.txt`
helper file is created and unlinked again inside the call, so it has no
net effect on the directory.  The process outcome is `env.mergeOk`. -/
def mergeChunks (env : Env) (s : Sys) (rid : String) (outName : String) :
    Except String Sys :=
  let dir := (s.files rid).getD []
  let chunkFiles := getChunkFiles dir
  if chunkFiles.length = 0 then .error "No chunks found"
  else if env.mergeOk then
    let merged := (chunkFiles.map (readFile dir)).flatten
    .ok { s with files := fun k =>
            if k = rid then some (fsWrite dir outName merged) else s.files k }
  else .error "FFmpeg error"

end FfmpegService

/-! ## LocalStorageService -/

namespace LocalStorageService

/-- `save`: copy the merged file to the storage area under `key`
(overwrite semantics) and return the download URL for the key. -/
def save (env : Env) (s : Sys) (key : String) (bytes : Bytes) :
    Except String (String × Sys) :=
  if env.storageOk then
    .ok ("http://localhost:3000/recordings/download/" ++ key,
      { s with stored := fun k => if k = key then some bytes else s.stored k })
  else .error "StorageSaveFailed"

end LocalStorageService

/-! ## RecordingService -/

namespace RecordingService

/-- `startRecording`: create the temp directory if absent. -/
def startRecording (s : Sys) (rid : String) : Sys :=
  match s.files rid with
  | some _ => s
  | none => { s with files := fun k => if k = rid then some [] else s.files k }

/-- `saveChunk`: write `chunk-<padded index>.webm` into the recording's
temp directory, then store chunk metadata in Redis.  Writing into a
missing directory fails; a Redis outage fails the metadata write after
the file is already on disk. -/
def saveChunk (env : Env) (s : Sys) (rid : String) (bytes : Bytes) (i : Nat) :
    Sys × Option String :=
  match s.files rid with
  | none => (s, some "ENOENT")
  | some dir =>
    let s1 := { s with files := fun k =>
                  if k = rid then
                    some (FfmpegService.fsWrite dir (chunkFilename i) bytes)
                  else s.files k }
    if env.redisUp then (RedisService.setChunkMetadata s1 rid i bytes.length, none)
    else (s1, some "BackendUnavailable")

/-- Presence on disk of the chunk file for index `i`
(`fs.existsSync` on the name `saveChunk` uses). -/
def hasChunkFile (s : Sys) (rid : String) (i : Nat) : Bool :=
  ((s.files rid).getD []).any (fun e => decide (e.1 = chunkFilename i))

/-- `validateChunks`: expected count from the Redis counter; walk the
indices `0 .. expected-1` in order and collect every missing one. -/
def validateChunks (s : Sys) (rid : String) : ValidationResult :=
  let expected := RedisService.getChunkCount s rid
  let missing := (List.range expected).filter (fun i => !(hasChunkFile s rid i))
  { valid := missing.isEmpty, missingChunks := missing, totalChunks := expected }

/-- `cleanupChunks`: remove every file of the temp directory and the
directory itself; failures are logged and swallowed. -/
def cleanupChunks (s : Sys) (rid : String) : Sys × List Act :=
  ({ s with files := fun k => if k = rid then none else s.files k },
   [.cleanupRan rid])

/-- `finishRecording`: validate, merge, probe metadata, save to storage,
optionally clean up chunks, then notify.  On a validation gap the
detailed `recordingError` (missing indices + total) is sent and an
exception thrown; the surrounding catch sends a second, generic
`recordingError` and re-throws.  Merge/storage failures likewise reach
the catch and re-throw after the generic notification. -/
def finishRecording (env : Env) (s : Sys) (rid : String) : Outcome :=
  let v := validateChunks s rid
  if !v.valid then
    { state := s,
      trace := [.validateRan rid,
                .notifyRecordingError rid (some (v.missingChunks, v.totalChunks)),
                .notifyRecordingError rid none],
      err := some "MissingChunks" }
  else
    match FfmpegService.mergeChunks env s rid "merged.webm" with
    | .error e =>
      { state := s,
        trace := [.validateRan rid, .mergeRan rid, .notifyRecordingError rid none],
        err := some e }
    | .ok s1 =>
      let key := rid ++ "/final.webm"
      let merged := FfmpegService.readFile ((s1.files rid).getD []) "merged.webm"
      match LocalStorageService.save env s1 key merged with
      | .error e =>
        { state := s1,
          trace := [.validateRan rid, .mergeRan rid, .notifyRecordingError rid none],
          err := some e }
      | .ok (_, s2) =>
        if env.cleanupChunks then
          let (s3, tr) := cleanupChunks s2 rid
          { state := s3,
            trace := [.validateRan rid, .mergeRan rid, .artifactSaved rid key]
                      ++ tr ++ [.notifyRecordingReady rid],
            err := none }
        else
          { state := s2,
            trace := [.validateRan rid, .mergeRan rid, .artifactSaved rid key,
                      .notifyRecordingReady rid],
            err := none }

end RecordingService

/-! ## RecordingGateway -/

namespace RecordingGateway

/-- `handleStart`: track the session locally, store the started-at
marker in Redis (TTL not modelled) and create the temp directory. -/
def handleStart (env : Env) (s : Sys) (clientId rid : String) : Outcome :=
  let s1 := { s with active := fun c =>
      if c = clientId then some ⟨rid, env.now, env.now⟩ else s.active c }
  let s2 := { s1 with startedAt := fun k =>
      if k = rid then some env.now else s1.startedAt k }
  { state := RecordingService.startRecording s2 rid,
    trace := [.emitStarted rid], err := none }

/-- `handleChunk`: bump `lastChunkAt` on the tracked session, ask the
sequencer for the next index, save the chunk, acknowledge; any thrown
error is caught and answered with `chunkError` without aborting. -/
def handleChunk (env : Env) (s : Sys) (clientId rid : String) (bytes : Bytes) :
    Outcome :=
  let s0 := match s.active clientId with
    | some r => { s with active := fun c =>
        if c = clientId then some { r with lastChunkAt := env.now } else s.active c }
    | none => s
  if env.redisUp then
    let (i, s1) := RedisService.getNextChunkIndex s0 rid
    match RecordingService.saveChunk env s1 rid bytes i with
    | (s2, none) => { state := s2, trace := [.emitChunkAck rid i], err := none }
    | (s2, some _) => { state := s2, trace := [.emitChunkError rid], err := none }
  else
    { state := s0, trace := [.emitChunkError rid], err := none }

/-- `handleStop`: try the finalization lock; a loser answers `finished`
with the `Already processed` note and returns.  The winner drops local
tracking, runs `finishRecording`, deletes the shared recording data,
emits `finished`; an exception is re-thrown after the `finally` block
releases the lock.  Note that on the exception path nothing deletes the
shared counter here. -/
def handleStop (env : Env) (s : Sys) (clientId rid : String) : Outcome :=
  let a := RedisService.acquireFinalizationLock s rid
  if !a.1 then
    { state := a.2, trace := [.lockTried rid false, .emitFinished rid true],
      err := none }
  else
    let s2 := { a.2 with active := fun c =>
        if c = clientId then none else a.2.active c }
    let fr := RecordingService.finishRecording env s2 rid
    match fr.err with
    | none =>
      let s3 := RedisService.deleteRecordingData fr.state rid
      let s4 := RedisService.releaseFinalizationLock s3 rid
      { state := s4,
        trace := [.lockTried rid true] ++ fr.trace
                  ++ [.dataDeleted rid, .emitFinished rid false, .lockReleased rid],
        err := none }
    | some e =>
      let s4 := RedisService.releaseFinalizationLock fr.state rid
      { state := s4,
        trace := [.lockTried rid true] ++ fr.trace ++ [.lockReleased rid],
        err := some e }

/-- `autoFinalizeRecording` (the disconnect timer body): skip when the
session is no longer locally tracked; otherwise race for the lock (a
loser only drops local tracking).  The winner runs `finishRecording`;
on failure the catch block cleans up the chunks anyway and deletes the
shared data, swallowing the error; the `finally` block drops local
tracking and releases the lock on every path. -/
def autoFinalizeRecording (env : Env) (s : Sys) (clientId rid : String) :
    Outcome :=
  match s.active clientId with
  | none => { state := s, trace := [], err := none }
  | some _ =>
    let a := RedisService.acquireFinalizationLock s rid
    if !a.1 then
      { state := { a.2 with active := fun c =>
          if c = clientId then none else a.2.active c },
        trace := [.lockTried rid false], err := none }
    else
      let fr := RecordingService.finishRecording env a.2 rid
      match fr.err with
      | none =>
        let s3 := RedisService.deleteRecordingData fr.state rid
        let s4 := { s3 with active := fun c =>
            if c = clientId then none else s3.active c }
        { state := RedisService.releaseFinalizationLock s4 rid,
          trace := [.lockTried rid true] ++ fr.trace
                    ++ [.dataDeleted rid, .lockReleased rid],
          err := none }
      | some _ =>
        let c1 := RecordingService.cleanupChunks fr.state rid
        let s3 := RedisService.deleteRecordingData c1.1 rid
        let s4 := { s3 with active := fun c =>
            if c = clientId then none else s3.active c }
        { state := RedisService.releaseFinalizationLock s4 rid,
          trace := [.lockTried rid true] ++ fr.trace ++ c1.2
                    ++ [.dataDeleted rid, .lockReleased rid],
          err := none }

/-- `handleDisconnect`: when the connection still has a tracked
recording, schedule the one-shot auto-finalize timer.  The result is
the scheduled task `(delay in ms, clientId, recordId)` whose body is
`autoFinalizeRecording`; `none` when nothing is scheduled. -/
def handleDisconnect (s : Sys) (clientId : String) :
    Option (Nat × String × String) :=
  match s.active clientId with
  | some r => some (5000, clientId, r.recordId)
  | none => none

end RecordingGateway

/-! ## Scenario builders used by the claims -/

/-- Iterate the sequencer: the indices handed out by `n` consecutive
(linearized) `getNextChunkIndex` calls, in call order. -/
def nextIndices (s : Sys) (rid : String) : Nat → List Nat × Sys
  | 0 => ([], s)
  | n+1 =>
    let p := RedisService.getNextChunkIndex s rid
    let q := nextIndices p.2 rid n
    (p.1 :: q.1, q.2)

/-- The empty initial state: no Redis keys, no directories, no artifacts,
no tracked sessions. -/
def sys0 : Sys :=
  { counter := fun _ => none
    lock := fun _ => false
    startedAt := fun _ => none
    chunkMeta := fun _ _ => none
    files := fun _ => none
    stored := fun _ => none
    active := fun _ => none }

/-- A state whose recording `rid` has counter `n` and exactly the chunk
files with indices in `present` (payload `[i]`), tracked locally for
client `c`. -/
def mkSys (c rid : String) (n : Nat) (present : List Nat) : Sys :=
  { sys0 with
      counter := fun k => if k = rid then some n else none
      files := fun k =>
        if k = rid then some (present.map (fun i => (chunkFilename i, [i])))
        else none
      active := fun k => if k = c then some ⟨rid, 0, 0⟩ else none }

/-- Environment where every external effect succeeds. -/
def envOk : Env :=
  { redisUp := true, mergeOk := true, storageOk := true,
    cleanupChunks := true, now := 0 }

/-! ## Derived normal forms of the finalize workflow

These are not separate source functions: they name the states and
traces that `finishRecording` computes on its branches, so that the
characterization lemmas and the claims can refer to them compactly. -/

/-- Bytes the concat demuxer produces: chunk payloads in sorted
filename order. -/
def mergedBytes (s : Sys) (rid : String) : Bytes :=
  ((FfmpegService.getChunkFiles ((s.files rid).getD [])).map
    (FfmpegService.readFile ((s.files rid).getD []))).flatten

/-- State after a successful merge: `merged.webm` written into the
recording's temp directory. -/
def mergedState (s : Sys) (rid : String) : Sys :=
  { s with files := fun k =>
      if k = rid then
        some (FfmpegService.fsWrite ((s.files rid).getD []) "merged.webm"
          (mergedBytes s rid))
      else s.files k }

/-- The bytes the artifact store receives (read back from the merge
output file). -/
def savedBytes (s : Sys) (rid : String) : Bytes :=
  FfmpegService.readFile (((mergedState s rid).files rid).getD []) "merged.webm"

/-- State after the artifact store saved the merged file under
`rid ++ "/final.webm"`. -/
def storedState (s : Sys) (rid : String) : Sys :=
  { mergedState s rid with stored := fun k =>
      if k = rid ++ "/final.webm" then some (savedBytes s rid)
      else (mergedState s rid).stored k }

/-- Final state of a fully successful `finishRecording`: chunk
directory removed when the cleanup flag is set. -/
def finalizeSuccessState (env : Env) (s : Sys) (rid : String) : Sys :=
  if env.cleanupChunks then
    { storedState s rid with files := fun k =>
        if k = rid then none else (storedState s rid).files k }
  else storedState s rid

/-- Trace of a fully successful `finishRecording`. -/
def finalizeSuccessTrace (env : Env) (rid : String) : List Act :=
  [.validateRan rid, .mergeRan rid, .artifactSaved rid (rid ++ "/final.webm")]
    ++ (if env.cleanupChunks then [Act.cleanupRan rid] else [])
    ++ [.notifyRecordingReady rid]

/-! ## Helper lemmas: sequencer iteration -/

theorem nextIndices_eq_range' (rid : String) :
    ∀ (n : Nat) (s : Sys) (c : Nat), (s.counter rid).getD 0 = c →
      (nextIndices s rid n).1 = List.range' c n := by
  intro n
  induction n with
  | zero => intro s c _; rfl
  | succ n ih =>
    intro s c hc
    simp only [nextIndices, List.range'_succ]
    refine congrArg₂ List.cons ?_ (ih _ _ ?_)
    · simp [RedisService.getNextChunkIndex, hc]
    · simp [RedisService.getNextChunkIndex, hc]

/-! ## Helper lemmas: validation -/

theorem validateChunks_missing_sorted (s : Sys) (rid : String) :
    List.Sorted (· < ·) (RecordingService.validateChunks s rid).missingChunks := by
  exact (List.pairwise_lt_range _).filter _

theorem validateChunks_missing_mem (s : Sys) (rid : String) (i : Nat) :
    i ∈ (RecordingService.validateChunks s rid).missingChunks ↔
      i < (RecordingService.validateChunks s rid).totalChunks ∧
        RecordingService.hasChunkFile s rid i = false := by
  simp [RecordingService.validateChunks, List.mem_filter, List.mem_range, and_comm]

theorem validateChunks_valid_iff (s : Sys) (rid : String) :
    (RecordingService.validateChunks s rid).valid = true ↔
      (RecordingService.validateChunks s rid).missingChunks = [] := by
  simp [RecordingService.validateChunks, List.isEmpty_iff]

/-! ## Claim C1 -/

/-- C1: for every `recordId` whose shared counter is fresh, the first
`getNextChunkIndex` call returns 0 and `n` consecutive (linearized)
calls return exactly `[0, …, n-1]` in call order — each call returns
the number of calls made before it, strictly increasing with no
duplicate and no gap.  Redis `INCR` is atomic, so any interleaving of
concurrent callers is one such linearized sequence. -/
theorem sequencer_indices_are_range (s : Sys) (rid : String) (n : Nat)
    (hfresh : s.counter rid = none) :
    (nextIndices s rid n).1 = List.range n := by
  rw [List.range_eq_range']
  exact nextIndices_eq_range' rid n s 0 (by simp [hfresh])

/-- Witness for C1: from the empty state, three calls return `[0, 1, 2]`. -/
theorem sequencer_indices_are_range_witness :
    sys0.counter "r1" = none ∧ (nextIndices sys0 "r1" 3).1 = List.range 3 :=
  ⟨rfl, sequencer_indices_are_range sys0 "r1" 3 rfl⟩

/-! ## Claim C5 -/

/-- C5: completeness validation checks every index in
`[0, expectedCount)`, returns the complete ascending list of missing
indices, and is valid exactly when that list is empty; concretely, with
indices 2 and 5 absent out of 10 expected it returns
`{valid := false, missingIndices := [2, 5], total := 10}`. -/
theorem validateChunks_spec (s : Sys) (rid : String) :
    List.Sorted (· < ·) (RecordingService.validateChunks s rid).missingChunks ∧
    (RecordingService.validateChunks s rid).totalChunks =
      RedisService.getChunkCount s rid ∧
    (∀ i, i ∈ (RecordingService.validateChunks s rid).missingChunks ↔
      i < (RecordingService.validateChunks s rid).totalChunks ∧
        RecordingService.hasChunkFile s rid i = false) ∧
    ((RecordingService.validateChunks s rid).valid = true ↔
      (RecordingService.validateChunks s rid).missingChunks = []) ∧
    RecordingService.validateChunks (mkSys "c1" "r1" 10 [0,1,3,4,6,7,8,9]) "r1" =
      { valid := false, missingChunks := [2, 5], totalChunks := 10 } := by
  refine ⟨validateChunks_missing_sorted s rid, rfl,
    validateChunks_missing_mem s rid, validateChunks_valid_iff s rid, by decide⟩

/-! ## Helper lemmas: directory writes -/

theorem fsWrite_any_self (d : List (String × Bytes)) (name : String) (b : Bytes) :
    (FfmpegService.fsWrite d name b).any (fun e => decide (e.1 = name)) = true := by
  unfold FfmpegService.fsWrite
  by_cases h : d.any (fun e => decide (e.1 = name)) = true
  · rw [if_pos h]
    rcases List.any_eq_true.1 h with ⟨e, he, hp⟩
    refine List.any_eq_true.2 ⟨(name, b), ?_, by simp⟩
    refine List.mem_map.2 ⟨e, he, ?_⟩
    simp at hp
    simp [hp]
  · rw [if_neg h]
    exact List.any_eq_true.2 ⟨(name, b), by simp, by simp⟩

/-! ## Claim C9 -/

/-- C9: when the sequencer's backing store is unreachable at chunk
time, the chunk handler emits a per-chunk error, persists nothing (the
directory and the counter are untouched), and keeps the session alive;
the next chunk event, with the store reachable again, is processed
normally: it gets the next index, saves the chunk file and is
acknowledged. -/
theorem chunk_sequencer_failure_is_isolated (env1 env2 : Env) (s : Sys)
    (c rid : String) (b1 b2 : Bytes)
    (hdown : env1.redisUp = false) (hup : env2.redisUp = true)
    (hdir : (s.files rid).isSome = true) :
    (RecordingGateway.handleChunk env1 s c rid b1).trace = [.emitChunkError rid] ∧
    (RecordingGateway.handleChunk env1 s c rid b1).err = none ∧
    (RecordingGateway.handleChunk env1 s c rid b1).state.files rid = s.files rid ∧
    (RecordingGateway.handleChunk env1 s c rid b1).state.counter rid =
      s.counter rid ∧
    ((RecordingGateway.handleChunk env1 s c rid b1).state.active c).isSome =
      (s.active c).isSome ∧
    (RecordingGateway.handleChunk env2
        (RecordingGateway.handleChunk env1 s c rid b1).state c rid b2).trace =
      [.emitChunkAck rid
        (RedisService.getChunkCount
          (RecordingGateway.handleChunk env1 s c rid b1).state rid)] ∧
    RecordingService.hasChunkFile
      (RecordingGateway.handleChunk env2
        (RecordingGateway.handleChunk env1 s c rid b1).state c rid b2).state rid
      (RedisService.getChunkCount
        (RecordingGateway.handleChunk env1 s c rid b1).state rid) = true := by
  have hfiles : (RecordingGateway.handleChunk env1 s c rid b1).state.files =
      s.files := by
    unfold RecordingGateway.handleChunk
    rw [hdown]
    cases h : s.active c <;> simp [h]
  have hcounter : (RecordingGateway.handleChunk env1 s c rid b1).state.counter =
      s.counter := by
    unfold RecordingGateway.handleChunk
    rw [hdown]
    cases h : s.active c <;> simp [h]
  have htrace : (RecordingGateway.handleChunk env1 s c rid b1).trace =
      [.emitChunkError rid] ∧
      (RecordingGateway.handleChunk env1 s c rid b1).err = none := by
    unfold RecordingGateway.handleChunk
    rw [hdown]
    cases h : s.active c <;> simp [h]
  have hactive :
      ((RecordingGateway.handleChunk env1 s c rid b1).state.active c).isSome =
        (s.active c).isSome := by
    unfold RecordingGateway.handleChunk
    rw [hdown]
    cases h : s.active c <;> simp [h]
  refine ⟨htrace.1, htrace.2, by rw [hfiles], by rw [hcounter], hactive, ?_, ?_⟩
  all_goals
    set s1 := (RecordingGateway.handleChunk env1 s c rid b1).state with hs1
    rcases hd : s1.files rid with _ | dir
    · rw [hfiles] at hd
      rw [hd] at hdir
      simp at hdir
    · unfold RecordingGateway.handleChunk
      rw [hup]
      unfold RecordingService.saveChunk RedisService.getNextChunkIndex
      cases h : s1.active c <;>
        simp [h, hd, hup, RedisService.getChunkCount,
          RedisService.setChunkMetadata, RecordingService.hasChunkFile,
          fsWrite_any_self]

/-- Witness for C9: concrete outage on chunk 2 of `r1`, then recovery. -/
theorem chunk_sequencer_failure_is_isolated_witness :
    ({ envOk with redisUp := false } : Env).redisUp = false ∧
    envOk.redisUp = true ∧
    ((mkSys "c1" "r1" 1 [0]).files "r1").isSome = true ∧
    (RecordingGateway.handleChunk { envOk with redisUp := false }
      (mkSys "c1" "r1" 1 [0]) "c1" "r1" [7]).trace = [.emitChunkError "r1"] := by
  refine ⟨rfl, rfl, rfl, ?_⟩
  exact (chunk_sequencer_failure_is_isolated { envOk with redisUp := false }
    envOk (mkSys "c1" "r1" 1 [0]) "c1" "r1" [7] [8] rfl rfl rfl).1

/-! ## Helper lemmas: sorting and chunk-file names -/

theorem insertSorted_perm (le : α → α → Bool) (a : α) (l : List α) :
    (insertSorted le a l).Perm (a :: l) := by
  induction l with
  | nil => exact List.Perm.refl _
  | cons b bs ih =>
    unfold insertSorted
    by_cases h : le a b = true
    · rw [if_pos h]
    · rw [if_neg h]
      exact (ih.cons b).trans (List.Perm.swap a b bs)

theorem sortBy_perm (le : α → α → Bool) (l : List α) : (sortBy le l).Perm l := by
  induction l with
  | nil => exact List.Perm.refl _
  | cons a as ih =>
    exact (insertSorted_perm le a (sortBy le as)).trans (ih.cons a)

theorem listStartsWith_append (p rest : List Char) :
    listStartsWith p (p ++ rest) = true := by
  induction p with
  | nil => rfl
  | cons a as ih => simp [listStartsWith, ih]

theorem isChunkFile_chunkFilename (i : Nat) :
    isChunkFile (chunkFilename i) = true := by
  have h1 : (chunkFilename i).data =
      "chunk-".data ++ ((padStart (natToString i) 3 '0').data ++ ".webm".data) := by
    unfold chunkFilename
    rw [String.data_append, String.data_append, List.append_assoc]
  have h2 : (chunkFilename i).data.reverse =
      ".webm".data.reverse ++
        (((padStart (natToString i) 3 '0').data).reverse ++ "chunk-".data.reverse) := by
    rw [h1]
    simp [List.reverse_append]
  unfold isChunkFile strStartsWith strEndsWith
  rw [h2, h1, Bool.and_eq_true]
  exact ⟨listStartsWith_append _ _, listStartsWith_append _ _⟩

theorem validateChunks_valid_of_all (s : Sys) (rid : String)
    (h : ∀ i, i < RedisService.getChunkCount s rid →
      RecordingService.hasChunkFile s rid i = true) :
    (RecordingService.validateChunks s rid).valid = true := by
  have : (List.range (RedisService.getChunkCount s rid)).filter
      (fun i => !(RecordingService.hasChunkFile s rid i)) = [] := by
    rw [List.filter_eq_nil_iff]
    intro i hi
    rw [List.mem_range] at hi
    simp [h i hi]
  simp [RecordingService.validateChunks, this]

theorem getChunkFiles_ne_nil (s : Sys) (rid : String) (i : Nat)
    (h : RecordingService.hasChunkFile s rid i = true) :
    FfmpegService.getChunkFiles ((s.files rid).getD []) ≠ [] := by
  intro hnil
  unfold RecordingService.hasChunkFile at h
  rcases List.any_eq_true.1 h with ⟨e, he, hp⟩
  simp at hp
  have hmem : chunkFilename i ∈
      (((s.files rid).getD []).map (fun e => e.1)).filter isChunkFile := by
    refine List.mem_filter.2 ⟨?_, isChunkFile_chunkFilename i⟩
    exact List.mem_map.2 ⟨e, he, hp⟩
  have := ((sortBy_perm strLeB _).mem_iff).2 hmem
  rw [FfmpegService.getChunkFiles] at hnil
  rw [hnil] at this
  exact List.not_mem_nil _ this

/-! ## Helper lemmas: finalize workflow characterizations -/

theorem mergeChunks_ok (env : Env) (s : Sys) (rid : String)
    (hne : FfmpegService.getChunkFiles ((s.files rid).getD []) ≠ [])
    (hm : env.mergeOk = true) :
    FfmpegService.mergeChunks env s rid "merged.webm" =
      .ok ((mergedState s rid : Sys)) := by
  unfold FfmpegService.mergeChunks mergedState mergedBytes
  rw [if_neg (fun hlen => hne (List.length_eq_zero.mp hlen)), if_pos hm]

theorem finishRecording_success (env : Env) (s : Sys) (rid : String)
    (hv : (RecordingService.validateChunks s rid).valid = true)
    (hne : FfmpegService.getChunkFiles ((s.files rid).getD []) ≠ [])
    (hm : env.mergeOk = true) (hst : env.storageOk = true) :
    RecordingService.finishRecording env s rid =
      { state := finalizeSuccessState env s rid,
        trace := finalizeSuccessTrace env rid,
        err := none } := by
  unfold RecordingService.finishRecording
  rw [mergeChunks_ok env s rid hne hm]
  simp only [hv, Bool.not_true, Bool.false_eq_true, if_false]
  unfold LocalStorageService.save RecordingService.cleanupChunks
  rw [if_pos hst]
  unfold finalizeSuccessState finalizeSuccessTrace storedState savedBytes
  by_cases hcu : env.cleanupChunks = true
  · simp only [hcu, if_true]
  · simp only [Bool.not_eq_true] at hcu
    simp only [hcu, Bool.false_eq_true, if_false]
    simp

theorem finishRecording_invalid (env : Env) (s : Sys) (rid : String)
    (hv : (RecordingService.validateChunks s rid).valid = false) :
    RecordingService.finishRecording env s rid =
      { state := s,
        trace := [.validateRan rid,
                  .notifyRecordingError rid
                    (some ((RecordingService.validateChunks s rid).missingChunks,
                           (RecordingService.validateChunks s rid).totalChunks)),
                  .notifyRecordingError rid none],
        err := some "MissingChunks" } := by
  unfold RecordingService.finishRecording
  simp only [hv, Bool.not_false, if_true]

theorem finishRecording_merge_fail (env : Env) (s : Sys) (rid : String)
    (hv : (RecordingService.validateChunks s rid).valid = true)
    (hm : env.mergeOk = false) :
    RecordingService.finishRecording env s rid =
      { state := s,
        trace := [.validateRan rid, .mergeRan rid, .notifyRecordingError rid none],
        err := some (if FfmpegService.getChunkFiles ((s.files rid).getD []) = []
                     then "No chunks found" else "FFmpeg error") } := by
  unfold RecordingService.finishRecording
  simp only [hv, Bool.not_true, Bool.false_eq_true, if_false]
  unfold FfmpegService.mergeChunks
  by_cases hnil : FfmpegService.getChunkFiles ((s.files rid).getD []) = []
  · simp [hnil]
  · rw [if_neg (fun hlen => hnil (List.length_eq_zero.mp hlen)), hm]
    simp [hnil]

theorem finishRecording_storage_fail (env : Env) (s : Sys) (rid : String)
    (hv : (RecordingService.validateChunks s rid).valid = true)
    (hne : FfmpegService.getChunkFiles ((s.files rid).getD []) ≠ [])
    (hm : env.mergeOk = true) (hst : env.storageOk = false) :
    RecordingService.finishRecording env s rid =
      { state := mergedState s rid,
        trace := [.validateRan rid, .mergeRan rid, .notifyRecordingError rid none],
        err := some "StorageSaveFailed" } := by
  unfold RecordingService.finishRecording
  rw [mergeChunks_ok env s rid hne hm]
  simp only [hv, Bool.not_true, Bool.false_eq_true, if_false]
  unfold LocalStorageService.save
  rw [hst]
  simp only [Bool.false_eq_true, if_false]

theorem finishRecording_no_chunks (env : Env) (s : Sys) (rid : String)
    (hv : (RecordingService.validateChunks s rid).valid = true)
    (hnil : FfmpegService.getChunkFiles ((s.files rid).getD []) = []) :
    RecordingService.finishRecording env s rid =
      { state := s,
        trace := [.validateRan rid, .mergeRan rid, .notifyRecordingError rid none],
        err := some "No chunks found" } := by
  unfold RecordingService.finishRecording FfmpegService.mergeChunks
  simp [hv, hnil]

theorem finalizeSuccessState_frame (env : Env) (s : Sys) (rid : String)
    (g : String → Bool) (f : String → Option ActiveRec) :
    finalizeSuccessState env { s with lock := g, active := f } rid =
      { finalizeSuccessState env s rid with lock := g, active := f } := by
  unfold finalizeSuccessState
  by_cases hcu : env.cleanupChunks = true
  · simp only [hcu, if_true]
    rfl
  · simp only [hcu, Bool.false_eq_true, if_false]
    rfl

/-- Frame lemma: `finishRecording` neither reads nor keeps the lock
flag or the local session map; updating them on the input state
commutes with the call. -/
theorem finishRecording_frame (env : Env) (s : Sys) (rid : String)
    (g : String → Bool) (f : String → Option ActiveRec) :
    RecordingService.finishRecording env { s with lock := g, active := f } rid =
      { state := { (RecordingService.finishRecording env s rid).state with
                     lock := g, active := f },
        trace := (RecordingService.finishRecording env s rid).trace,
        err := (RecordingService.finishRecording env s rid).err } := by
  by_cases hv : (RecordingService.validateChunks s rid).valid = true
  · by_cases hnil : FfmpegService.getChunkFiles ((s.files rid).getD []) = []
    · rw [finishRecording_no_chunks env { s with lock := g, active := f } rid hv hnil,
          finishRecording_no_chunks env s rid hv hnil]
    · by_cases hm : env.mergeOk = true
      · by_cases hst : env.storageOk = true
        · rw [finishRecording_success env { s with lock := g, active := f } rid hv hnil hm hst,
              finishRecording_success env s rid hv hnil hm hst,
              finalizeSuccessState_frame]
        · have hst2 : env.storageOk = false := by simpa using hst
          rw [finishRecording_storage_fail env { s with lock := g, active := f } rid hv hnil hm hst2,
              finishRecording_storage_fail env s rid hv hnil hm hst2]
          rfl
      · have hm2 : env.mergeOk = false := by simpa using hm
        rw [finishRecording_merge_fail env { s with lock := g, active := f } rid hv hm2,
            finishRecording_merge_fail env s rid hv hm2]
  · have hv2 : (RecordingService.validateChunks s rid).valid = false := by
      simpa using hv
    rw [finishRecording_invalid env { s with lock := g, active := f } rid hv2,
        finishRecording_invalid env s rid hv2]
    rfl

/-! ## Helper lemmas: lock field facts -/

theorem releaseFinalizationLock_lock (s : Sys) (rid : String) :
    (RedisService.releaseFinalizationLock s rid).lock rid = false := by
  simp [RedisService.releaseFinalizationLock]

theorem deleteRecordingData_lock (s : Sys) (rid : String) :
    (RedisService.deleteRecordingData s rid).lock rid = false := by
  simp [RedisService.deleteRecordingData]

/-! ## Claim C10 -/

/-- C10: lock release is not holder-scoped.  `releaseFinalizationLock`
and `deleteRecordingData` unconditionally delete the lock key from any
state — including a state in which another process re-acquired the
lock after the original holder's TTL expired — and a successful
explicit stop invokes `deleteRecordingData` (which removes the lock
key) strictly before its final `finished` emission and `finally`-block
release, so mutual exclusion is already gone while the finalize
handler is still running. -/
theorem lock_release_not_holder_scoped :
    (∀ (s : Sys) (rid : String),
      (RedisService.releaseFinalizationLock s rid).lock rid = false) ∧
    (∀ (s : Sys) (rid : String),
      (RedisService.deleteRecordingData s rid).lock rid = false) ∧
    (∀ (env : Env) (s : Sys) (c rid : String),
      s.lock rid = false →
      (∀ i, i < RedisService.getChunkCount s rid →
        RecordingService.hasChunkFile s rid i = true) →
      FfmpegService.getChunkFiles ((s.files rid).getD []) ≠ [] →
      env.mergeOk = true → env.storageOk = true →
      (RecordingGateway.handleStop env s c rid).trace =
        [Act.lockTried rid true] ++ finalizeSuccessTrace env rid
          ++ [Act.dataDeleted rid, Act.emitFinished rid false,
              Act.lockReleased rid]) := by
  refine ⟨releaseFinalizationLock_lock, deleteRecordingData_lock, ?_⟩
  intro env s c rid hlock hval hne hm hst
  have hv := validateChunks_valid_of_all s rid hval
  unfold RecordingGateway.handleStop
  simp only [RedisService.acquireFinalizationLock, hlock, Bool.false_eq_true,
    if_false, Bool.not_true]
  rw [finishRecording_frame env s rid, finishRecording_success env s rid hv hne hm hst]

/-- Witness for C10: concrete successful stop of a two-chunk recording. -/
theorem lock_release_not_holder_scoped_witness :
    (RecordingGateway.handleStop envOk (mkSys "c1" "r1" 2 [0,1]) "c1" "r1").trace =
      [Act.lockTried "r1" true] ++ finalizeSuccessTrace envOk "r1"
        ++ [Act.dataDeleted "r1", Act.emitFinished "r1" false,
            Act.lockReleased "r1"] := by
  exact lock_release_not_holder_scoped.2.2 envOk (mkSys "c1" "r1" 2 [0,1])
    "c1" "r1" rfl (by decide) (by decide) rfl rfl

/-! ## Claim C4 -/

/-- C4: when two finalization attempts race for a `recordId`, the lock
admits exactly one.  (i) From an unlocked state the first `TryAcquire`
returns true and a second attempt while it is held returns false;
(ii) the losing stop handler changes nothing, performs no validation,
merge or artifact save (its trace holds only the failed lock try and
the acknowledgment), and answers `finished` with the
`Already processed` note rather than an error; (iii) the winning stop
handler performs exactly one merge run and exactly one artifact save. -/
theorem finalization_lock_admits_exactly_one :
    (∀ (s : Sys) (rid : String), s.lock rid = false →
      (RedisService.acquireFinalizationLock s rid).1 = true ∧
      (RedisService.acquireFinalizationLock
        (RedisService.acquireFinalizationLock s rid).2 rid).1 = false) ∧
    (∀ (env : Env) (s : Sys) (c rid : String), s.lock rid = true →
      RecordingGateway.handleStop env s c rid =
        { state := s,
          trace := [Act.lockTried rid false, Act.emitFinished rid true],
          err := none }) ∧
    (∀ (env : Env) (s : Sys) (c rid : String),
      s.lock rid = false →
      (RecordingService.validateChunks s rid).valid = true →
      FfmpegService.getChunkFiles ((s.files rid).getD []) ≠ [] →
      env.mergeOk = true → env.storageOk = true →
      (RecordingGateway.handleStop env s c rid).trace.count (Act.mergeRan rid) = 1 ∧
      (RecordingGateway.handleStop env s c rid).trace.count
        (Act.artifactSaved rid (rid ++ "/final.webm")) = 1) := by
  refine ⟨?_, ?_, ?_⟩
  · intro s rid h
    refine ⟨by simp [RedisService.acquireFinalizationLock, h], ?_⟩
    simp [RedisService.acquireFinalizationLock, h]
  · intro env s c rid h
    unfold RecordingGateway.handleStop
    simp [RedisService.acquireFinalizationLock, h]
  · intro env s c rid hlock hv hne hm hst
    unfold RecordingGateway.handleStop
    simp only [RedisService.acquireFinalizationLock, hlock, Bool.false_eq_true,
      if_false, Bool.not_true]
    rw [finishRecording_frame env s rid,
      finishRecording_success env s rid hv hne hm hst]
    unfold finalizeSuccessTrace
    by_cases hcu : env.cleanupChunks = true
    · simp [hcu, List.count_cons, List.count_append]
    · simp only [Bool.not_eq_true] at hcu
      simp [hcu, List.count_cons, List.count_append]

/-- Witness for C4: a concrete race for `r1`: the winner's run and a
loser started while the lock is held. -/
theorem finalization_lock_admits_exactly_one_witness :
    ((RedisService.acquireFinalizationLock (mkSys "c1" "r1" 2 [0,1]) "r1").1 =
      true ∧
     (RedisService.acquireFinalizationLock
       (RedisService.acquireFinalizationLock (mkSys "c1" "r1" 2 [0,1]) "r1").2
       "r1").1 = false) ∧
    (RecordingGateway.handleStop envOk
        { mkSys "c1" "r1" 2 [0,1] with lock := fun _ => true } "c2" "r1" =
      { state := { mkSys "c1" "r1" 2 [0,1] with lock := fun _ => true },
        trace := [Act.lockTried "r1" false, Act.emitFinished "r1" true],
        err := none }) ∧
    (RecordingGateway.handleStop envOk (mkSys "c1" "r1" 2 [0,1]) "c1" "r1").trace.count
      (Act.mergeRan "r1") = 1 := by
  refine ⟨finalization_lock_admits_exactly_one.1 (mkSys "c1" "r1" 2 [0,1]) "r1" rfl,
    finalization_lock_admits_exactly_one.2.1 envOk
      { mkSys "c1" "r1" 2 [0,1] with lock := fun _ => true } "c2" "r1" rfl,
    (finalization_lock_admits_exactly_one.2.2 envOk (mkSys "c1" "r1" 2 [0,1])
      "c1" "r1" rfl (by decide) (by decide) rfl rfl).1⟩

/-! ## Helper lemmas: finishRecording preserves the sequencer counter -/

theorem finishRecording_counter (env : Env) (s : Sys) (rid : String) :
    (RecordingService.finishRecording env s rid).state.counter = s.counter := by
  by_cases hv : (RecordingService.validateChunks s rid).valid = true
  · by_cases hnil : FfmpegService.getChunkFiles ((s.files rid).getD []) = []
    · rw [finishRecording_no_chunks env s rid hv hnil]
    · by_cases hm : env.mergeOk = true
      · by_cases hst : env.storageOk = true
        · rw [finishRecording_success env s rid hv hnil hm hst]
          unfold finalizeSuccessState storedState mergedState
          by_cases hcu : env.cleanupChunks = true
          · simp [hcu]
          · simp [hcu]
        · have hst2 : env.storageOk = false := by simpa using hst
          rw [finishRecording_storage_fail env s rid hv hnil hm hst2]
          unfold mergedState
          rfl
      · have hm2 : env.mergeOk = false := by simpa using hm
        rw [finishRecording_merge_fail env s rid hv hm2]
  · have hv2 : (RecordingService.validateChunks s rid).valid = false := by
      simpa using hv
    rw [finishRecording_invalid env s rid hv2]

/-! ## Claim C2 -/

/-- C2 counterexample: the claim states that on every exit path of
finalization the shared sequencer counter is cleared.  On the
explicit-stop path with a failed merge, the handler exits with the
re-thrown error while the counter key for `r1` still holds 1: the
counter is not cleared on this exit path. -/
theorem stop_error_leaves_counter_counterexample :
    (RecordingGateway.handleStop { envOk with mergeOk := false }
      (mkSys "c1" "r1" 1 [0]) "c1" "r1").err = some "FFmpeg error" ∧
    (RecordingGateway.handleStop { envOk with mergeOk := false }
      (mkSys "c1" "r1" 1 [0]) "c1" "r1").state.counter "r1" = some 1 := by
  exact ⟨by decide, by decide⟩

/-- C2 (amended): once the finalization lock is acquired, the
explicit-stop handler releases the lock and removes local session
tracking on every exit path, but clears the shared sequencer counter
only when finalization succeeds — on an exception the error propagates
with the counter left exactly as it was.  The disconnect-triggered
handler releases the lock, clears the counter and removes local
tracking on every exit path. -/
theorem finalize_exit_paths_cleanup (env : Env) (s : Sys) (c rid : String)
    (hlock : s.lock rid = false) :
    ((RecordingGateway.handleStop env s c rid).state.lock rid = false ∧
     (RecordingGateway.handleStop env s c rid).state.active c = none ∧
     ((RecordingGateway.handleStop env s c rid).err = none →
       (RecordingGateway.handleStop env s c rid).state.counter rid = none) ∧
     (∀ e, (RecordingGateway.handleStop env s c rid).err = some e →
       (RecordingGateway.handleStop env s c rid).state.counter rid =
         s.counter rid)) ∧
    ((s.active c).isSome = true →
      (RecordingGateway.autoFinalizeRecording env s c rid).state.lock rid = false ∧
      (RecordingGateway.autoFinalizeRecording env s c rid).state.active c = none ∧
      (RecordingGateway.autoFinalizeRecording env s c rid).state.counter rid =
        none) := by
  constructor
  · unfold RecordingGateway.handleStop
    simp only [RedisService.acquireFinalizationLock, hlock, Bool.false_eq_true,
      if_false, Bool.not_true]
    rw [finishRecording_frame env s rid]
    cases hfr : (RecordingService.finishRecording env s rid).err with
    | none =>
      simp [RedisService.releaseFinalizationLock, RedisService.deleteRecordingData]
    | some e =>
      simp [RedisService.releaseFinalizationLock, RedisService.deleteRecordingData,
        finishRecording_counter env s rid]
  · intro htrack
    rcases hsome : s.active c with _ | r0
    · rw [hsome] at htrack
      simp at htrack
    · unfold RecordingGateway.autoFinalizeRecording
      rw [hsome]
      simp only [RedisService.acquireFinalizationLock, hlock, Bool.false_eq_true,
        if_false, Bool.not_true]
      rw [finishRecording_frame env s rid]
      cases hfr : (RecordingService.finishRecording env s rid).err with
      | none =>
        simp [RedisService.releaseFinalizationLock,
          RedisService.deleteRecordingData]
      | some e =>
        simp [RedisService.releaseFinalizationLock,
          RedisService.deleteRecordingData, RecordingService.cleanupChunks]

/-- Witness for C2 (amended): concrete two-chunk stop plus a concrete
disconnect-triggered finalize, both from an unlocked state. -/
theorem finalize_exit_paths_cleanup_witness :
    (mkSys "c1" "r1" 2 [0,1]).lock "r1" = false ∧
    (RecordingGateway.handleStop envOk (mkSys "c1" "r1" 2 [0,1]) "c1" "r1").state.lock
      "r1" = false ∧
    (RecordingGateway.autoFinalizeRecording envOk (mkSys "c1" "r1" 2 [0,1])
      "c1" "r1").state.counter "r1" = none := by
  refine ⟨rfl, ?_, ?_⟩
  · exact (finalize_exit_paths_cleanup envOk (mkSys "c1" "r1" 2 [0,1]) "c1" "r1"
      rfl).1.1
  · exact ((finalize_exit_paths_cleanup envOk (mkSys "c1" "r1" 2 [0,1]) "c1" "r1"
      rfl).2 rfl).2.2

/-! ## Helper lemmas: writes to other filenames preserve chunk files -/

theorem map_overwrite_any (es : List (String × Bytes)) (wname name : String)
    (b : Bytes) (hne : name ≠ wname) :
    (es.map (fun e => if e.1 = wname then (wname, b) else e)).any
        (fun e => decide (e.1 = name)) =
      es.any (fun e => decide (e.1 = name)) := by
  have hne2 : ¬(wname = name) := fun h => hne h.symm
  induction es with
  | nil => rfl
  | cons e es ih =>
    by_cases he : e.1 = wname
    · simp [he, hne2, ih]
    · simp [he, ih]

theorem fsWrite_any_ne (d : List (String × Bytes)) (wname name : String)
    (b : Bytes) (hne : name ≠ wname) :
    (FfmpegService.fsWrite d wname b).any (fun e => decide (e.1 = name)) =
      d.any (fun e => decide (e.1 = name)) := by
  have hne2 : ¬(wname = name) := fun h => hne h.symm
  unfold FfmpegService.fsWrite
  by_cases hin : d.any (fun e => decide (e.1 = wname)) = true
  · rw [if_pos hin]
    exact map_overwrite_any d wname name b hne
  · rw [if_neg hin]
    simp [hne2]

theorem chunkFilename_ne_merged (i : Nat) : chunkFilename i ≠ "merged.webm" := by
  intro h
  have h1 := isChunkFile_chunkFilename i
  rw [h] at h1
  exact absurd h1 (by decide)

/-! ## Claim C3 -/

/-- C3 counterexample: the claim states that when merge fails after
successful validation, the chunks are preserved on both finalization
paths.  On the disconnect-triggered path with one valid chunk and a
failing merge, the catch block cleans the chunk directory: the
recording's files are gone. -/
theorem auto_finalize_deletes_chunks_counterexample :
    (RecordingService.validateChunks (mkSys "c1" "r1" 1 [0]) "r1").valid = true ∧
    (RecordingGateway.autoFinalizeRecording { envOk with mergeOk := false }
      (mkSys "c1" "r1" 1 [0]) "c1" "r1").state.files "r1" = none ∧
    RecordingService.hasChunkFile
      (RecordingGateway.autoFinalizeRecording { envOk with mergeOk := false }
        (mkSys "c1" "r1" 1 [0]) "c1" "r1").state "r1" 0 = false := by
  exact ⟨by decide, by decide, by decide⟩

/-- C3 (amended): when merge or artifact-store save fails after
validation succeeded, the explicit-stop path preserves every chunk
file on disk and re-throws the error; the disconnect-triggered path
instead runs the cleanup and removes the chunk directory. -/
theorem merge_failure_chunk_preservation (env : Env) (s : Sys) (c rid : String)
    (hlock : s.lock rid = false)
    (hv : (RecordingService.validateChunks s rid).valid = true)
    (hfail : env.mergeOk = false ∨ env.storageOk = false) :
    ((RecordingGateway.handleStop env s c rid).err.isSome = true ∧
     ∀ i, RecordingService.hasChunkFile s rid i = true →
       RecordingService.hasChunkFile
         (RecordingGateway.handleStop env s c rid).state rid i = true) ∧
    ((s.active c).isSome = true →
      (RecordingGateway.autoFinalizeRecording env s c rid).state.files rid =
        none) := by
  constructor
  · unfold RecordingGateway.handleStop
    simp only [RedisService.acquireFinalizationLock, hlock, Bool.false_eq_true,
      if_false, Bool.not_true]
    rw [finishRecording_frame env s rid]
    by_cases hnil : FfmpegService.getChunkFiles ((s.files rid).getD []) = []
    · rw [finishRecording_no_chunks env s rid hv hnil]
      simp [RedisService.releaseFinalizationLock, RecordingService.hasChunkFile]
    · rcases hfail with hm | hst
      · rw [finishRecording_merge_fail env s rid hv hm]
        simp [RedisService.releaseFinalizationLock, RecordingService.hasChunkFile]
      · by_cases hm : env.mergeOk = true
        · rw [finishRecording_storage_fail env s rid hv hnil hm hst]
          refine ⟨by simp, ?_⟩
          intro i hi
          unfold RecordingService.hasChunkFile at hi ⊢
          unfold RedisService.releaseFinalizationLock mergedState
          simp only [eq_self_iff_true, if_true, Option.getD_some]
          rw [fsWrite_any_ne _ _ _ _ (chunkFilename_ne_merged i)]
          exact hi
        · have hm2 : env.mergeOk = false := by simpa using hm
          rw [finishRecording_merge_fail env s rid hv hm2]
          simp [RedisService.releaseFinalizationLock, RecordingService.hasChunkFile]
  · intro htrack
    rcases hsome : s.active c with _ | r0
    · rw [hsome] at htrack
      simp at htrack
    · unfold RecordingGateway.autoFinalizeRecording
      rw [hsome]
      simp only [RedisService.acquireFinalizationLock, hlock, Bool.false_eq_true,
        if_false, Bool.not_true]
      rw [finishRecording_frame env s rid]
      have herr : (RecordingService.finishRecording env s rid).err.isSome = true := by
        by_cases hnil : FfmpegService.getChunkFiles ((s.files rid).getD []) = []
        · rw [finishRecording_no_chunks env s rid hv hnil]
          rfl
        · rcases hfail with hm | hst
          · rw [finishRecording_merge_fail env s rid hv hm]
            rfl
          · by_cases hm : env.mergeOk = true
            · rw [finishRecording_storage_fail env s rid hv hnil hm hst]
              rfl
            · have hm2 : env.mergeOk = false := by simpa using hm
              rw [finishRecording_merge_fail env s rid hv hm2]
              rfl
      rcases hfr : (RecordingService.finishRecording env s rid).err with _ | e
      · rw [hfr] at herr
        simp at herr
      · simp [RedisService.releaseFinalizationLock,
          RedisService.deleteRecordingData, RecordingService.cleanupChunks]

/-- Witness for C3 (amended): one valid chunk, merge fails; the stop
path keeps `chunk-000.webm`, the disconnect path removes the
directory. -/
theorem merge_failure_chunk_preservation_witness :
    (mkSys "c1" "r1" 1 [0]).lock "r1" = false ∧
    (RecordingService.validateChunks (mkSys "c1" "r1" 1 [0]) "r1").valid = true ∧
    RecordingService.hasChunkFile
      (RecordingGateway.handleStop { envOk with mergeOk := false }
        (mkSys "c1" "r1" 1 [0]) "c1" "r1").state "r1" 0 = true := by
  refine ⟨rfl, by decide, ?_⟩
  exact (merge_failure_chunk_preservation { envOk with mergeOk := false }
    (mkSys "c1" "r1" 1 [0]) "c1" "r1" rfl (by decide) (Or.inl rfl)).1.2 0 (by decide)

/-! ## Claim C6 -/

/-- C6 counterexample: the claim states that on a validation failure
chunk cleanup is still attempted.  With 3 expected chunks and index 1
missing, the explicit-stop handler reports the full missing list and
releases the lock, but its trace contains no cleanup action: cleanup
is never attempted on this path. -/
theorem stop_validation_failure_no_cleanup_counterexample :
    (RecordingService.validateChunks (mkSys "c1" "r1" 3 [0,2]) "r1").valid =
      false ∧
    Act.notifyRecordingError "r1" (some ([1], 3)) ∈
      (RecordingGateway.handleStop envOk (mkSys "c1" "r1" 3 [0,2])
        "c1" "r1").trace ∧
    Act.cleanupRan "r1" ∉
      (RecordingGateway.handleStop envOk (mkSys "c1" "r1" 3 [0,2])
        "c1" "r1").trace := by
  exact ⟨by decide, by decide, by decide⟩

/-- C6 (amended): when validation fails, both finalization paths
report a `recordingError` carrying the complete missing-index list and
the expected total, and both release the lock so a subsequent
`TryAcquire` for the same `recordId` succeeds; however chunk cleanup
is attempted only on the disconnect-triggered path — the explicit-stop
handler re-throws without attempting cleanup. -/
theorem validation_failure_reporting (env : Env) (s : Sys) (c rid : String)
    (hlock : s.lock rid = false)
    (hv : (RecordingService.validateChunks s rid).valid = false) :
    (Act.notifyRecordingError rid
        (some ((RecordingService.validateChunks s rid).missingChunks,
               (RecordingService.validateChunks s rid).totalChunks)) ∈
      (RecordingGateway.handleStop env s c rid).trace ∧
     Act.cleanupRan rid ∉ (RecordingGateway.handleStop env s c rid).trace ∧
     (RecordingGateway.handleStop env s c rid).err.isSome = true ∧
     (RedisService.acquireFinalizationLock
       (RecordingGateway.handleStop env s c rid).state rid).1 = true) ∧
    ((s.active c).isSome = true →
      Act.notifyRecordingError rid
          (some ((RecordingService.validateChunks s rid).missingChunks,
                 (RecordingService.validateChunks s rid).totalChunks)) ∈
        (RecordingGateway.autoFinalizeRecording env s c rid).trace ∧
      Act.cleanupRan rid ∈
        (RecordingGateway.autoFinalizeRecording env s c rid).trace ∧
      (RecordingGateway.autoFinalizeRecording env s c rid).err = none ∧
      (RedisService.acquireFinalizationLock
        (RecordingGateway.autoFinalizeRecording env s c rid).state rid).1 =
        true) := by
  constructor
  · unfold RecordingGateway.handleStop
    simp only [RedisService.acquireFinalizationLock, hlock, Bool.false_eq_true,
      if_false, Bool.not_true]
    rw [finishRecording_frame env s rid, finishRecording_invalid env s rid hv]
    simp [RedisService.releaseFinalizationLock,
      RedisService.acquireFinalizationLock]
  · intro htrack
    rcases hsome : s.active c with _ | r0
    · rw [hsome] at htrack
      simp at htrack
    · unfold RecordingGateway.autoFinalizeRecording
      rw [hsome]
      simp only [RedisService.acquireFinalizationLock, hlock, Bool.false_eq_true,
        if_false, Bool.not_true]
      rw [finishRecording_frame env s rid, finishRecording_invalid env s rid hv]
      simp [RedisService.releaseFinalizationLock,
        RedisService.acquireFinalizationLock, RecordingService.cleanupChunks,
        RedisService.deleteRecordingData]

/-- Witness for C6 (amended): 3 expected chunks, index 1 missing. -/
theorem validation_failure_reporting_witness :
    (mkSys "c1" "r1" 3 [0,2]).lock "r1" = false ∧
    (RecordingService.validateChunks (mkSys "c1" "r1" 3 [0,2]) "r1").valid =
      false ∧
    (RedisService.acquireFinalizationLock
      (RecordingGateway.handleStop envOk (mkSys "c1" "r1" 3 [0,2])
        "c1" "r1").state "r1").1 = true := by
  refine ⟨rfl, by decide, ?_⟩
  exact (validation_failure_reporting envOk (mkSys "c1" "r1" 3 [0,2]) "c1" "r1"
    rfl (by decide)).1.2.2.2

/-! ## Claim C7 -/

/-- C7 counterexample: the claim states that at timer expiry a still
tracked session is finalized through the same sequence of steps as an
explicit stop, producing the same outcome.  With one valid chunk and a
failing merge, the disconnect-triggered finalization removes the chunk
directory while an explicit stop from the same state preserves it: the
step sequences and outcomes differ. -/
theorem disconnect_finalize_differs_counterexample :
    RecordingGateway.handleDisconnect (mkSys "c1" "r1" 1 [0]) "c1" =
      some (5000, "c1", "r1") ∧
    (RecordingGateway.autoFinalizeRecording { envOk with mergeOk := false }
      (mkSys "c1" "r1" 1 [0]) "c1" "r1").state.files "r1" = none ∧
    (RecordingGateway.handleStop { envOk with mergeOk := false }
      (mkSys "c1" "r1" 1 [0]) "c1" "r1").state.files "r1" =
      some [(chunkFilename 0, [0])] := by
  exact ⟨by decide, by decide, by decide⟩

/-! Helper characterizations of a fully successful run of each
finalization handler. -/

theorem handleStop_success_run (env : Env) (s : Sys) (c rid : String)
    (hlock : s.lock rid = false)
    (hv : (RecordingService.validateChunks s rid).valid = true)
    (hne : FfmpegService.getChunkFiles ((s.files rid).getD []) ≠ [])
    (hm : env.mergeOk = true) (hst : env.storageOk = true) :
    RecordingGateway.handleStop env s c rid =
      { state := RedisService.releaseFinalizationLock
          (RedisService.deleteRecordingData
            { finalizeSuccessState env s rid with
                lock := fun k => if k = rid then true else s.lock k
                active := fun k => if k = c then none else s.active k } rid) rid,
        trace := [Act.lockTried rid true] ++ finalizeSuccessTrace env rid
                  ++ [Act.dataDeleted rid, Act.emitFinished rid false,
                      Act.lockReleased rid],
        err := none } := by
  unfold RecordingGateway.handleStop
  simp only [RedisService.acquireFinalizationLock, hlock, Bool.false_eq_true,
    if_false, Bool.not_true]
  rw [finishRecording_frame env s rid,
    finishRecording_success env s rid hv hne hm hst]

theorem autoFinalize_success_run (env : Env) (s : Sys) (c rid : String)
    (r0 : ActiveRec) (htrack : s.active c = some r0)
    (hlock : s.lock rid = false)
    (hv : (RecordingService.validateChunks s rid).valid = true)
    (hne : FfmpegService.getChunkFiles ((s.files rid).getD []) ≠ [])
    (hm : env.mergeOk = true) (hst : env.storageOk = true) :
    RecordingGateway.autoFinalizeRecording env s c rid =
      { state := RedisService.releaseFinalizationLock
          { RedisService.deleteRecordingData
              { finalizeSuccessState env s rid with
                  lock := fun k => if k = rid then true else s.lock k
                  active := s.active } rid
            with active := fun k => if k = c then none else s.active k } rid,
        trace := [Act.lockTried rid true] ++ finalizeSuccessTrace env rid
                  ++ [Act.dataDeleted rid, Act.lockReleased rid],
        err := none } := by
  unfold RecordingGateway.autoFinalizeRecording
  rw [htrack]
  simp only [RedisService.acquireFinalizationLock, hlock, Bool.false_eq_true,
    if_false, Bool.not_true]
  rw [finishRecording_frame env s rid,
    finishRecording_success env s rid hv hne hm hst]
  rfl

/-- C7 (amended): on disconnect with a tracked session a 5-second
one-shot timer is scheduled; at expiry a session that is no longer
tracked is skipped entirely, and a still-tracked session is finalized
through the same core sequence as an explicit stop (lock acquire,
finalize, shared-data deletion, lock release).  When finalization
succeeds the two paths produce identical final states with exactly one
merge run each; they diverge on finalization failure (the disconnect
path additionally cleans up the chunks, see the counterexample). -/
theorem disconnect_grace_finalize_equivalence (env : Env) (s : Sys)
    (c rid : String) (r0 : ActiveRec)
    (htrack : s.active c = some r0) (hrid : r0.recordId = rid)
    (hlock : s.lock rid = false)
    (hv : (RecordingService.validateChunks s rid).valid = true)
    (hne : FfmpegService.getChunkFiles ((s.files rid).getD []) ≠ [])
    (hm : env.mergeOk = true) (hst : env.storageOk = true) :
    RecordingGateway.handleDisconnect s c = some (5000, c, rid) ∧
    (RecordingGateway.autoFinalizeRecording env s c rid).state =
      (RecordingGateway.handleStop env s c rid).state ∧
    (RecordingGateway.autoFinalizeRecording env s c rid).err = none ∧
    (RecordingGateway.handleStop env s c rid).err = none ∧
    (RecordingGateway.autoFinalizeRecording env s c rid).trace.count
      (Act.mergeRan rid) = 1 ∧
    (RecordingGateway.handleStop env s c rid).trace.count
      (Act.mergeRan rid) = 1 ∧
    (∀ s2 : Sys, s2.active c = none →
      RecordingGateway.autoFinalizeRecording env s2 c rid =
        { state := s2, trace := [], err := none }) := by
  have hdis : RecordingGateway.handleDisconnect s c = some (5000, c, rid) := by
    unfold RecordingGateway.handleDisconnect
    rw [htrack]
    simp [hrid]
  have hstop := handleStop_success_run env s c rid hlock hv hne hm hst
  have hauto := autoFinalize_success_run env s c rid r0 htrack hlock hv hne hm hst
  have hcount : (finalizeSuccessTrace env rid).count (Act.mergeRan rid) = 1 := by
    unfold finalizeSuccessTrace
    by_cases hcu : env.cleanupChunks = true
    · simp [hcu, List.count_cons, List.count_append]
    · simp only [Bool.not_eq_true] at hcu
      simp [hcu, List.count_cons, List.count_append]
  refine ⟨hdis, ?_, ?_, ?_, ?_, ?_, ?_⟩
  · rw [hstop, hauto]
    rfl
  · rw [hauto]
  · rw [hstop]
  · rw [hauto]
    simp [List.count_cons, List.count_append, hcount]
  · rw [hstop]
    simp [List.count_cons, List.count_append, hcount]
  · intro s2 h2
    unfold RecordingGateway.autoFinalizeRecording
    rw [h2]

/-- Witness for C7 (amended): concrete success scenario with three
chunks streamed before the disconnect. -/
theorem disconnect_grace_finalize_equivalence_witness :
    (mkSys "c1" "r1" 3 [0,1,2]).active "c1" = some ⟨"r1", 0, 0⟩ ∧
    RecordingGateway.handleDisconnect (mkSys "c1" "r1" 3 [0,1,2]) "c1" =
      some (5000, "c1", "r1") ∧
    (RecordingGateway.autoFinalizeRecording envOk (mkSys "c1" "r1" 3 [0,1,2])
        "c1" "r1").state =
      (RecordingGateway.handleStop envOk (mkSys "c1" "r1" 3 [0,1,2])
        "c1" "r1").state := by
  have h := disconnect_grace_finalize_equivalence envOk
    (mkSys "c1" "r1" 3 [0,1,2]) "c1" "r1" ⟨"r1", 0, 0⟩ rfl rfl rfl
    (by decide) (by decide) rfl rfl
  exact ⟨rfl, h.1, h.2.1⟩

/-! ## Helper lemmas: the code-unit lexicographic order -/

theorem charsLt_cons_eq (a : Char) (as bs : List Char) :
    charsLt (a :: as) (a :: bs) = charsLt as bs := by
  simp [charsLt, lt_irrefl]

theorem charsLt_cons_lt {a b : Char} (h : a < b) (as bs : List Char) :
    charsLt (a :: as) (b :: bs) = true := by
  simp [charsLt, h]

theorem charsLt_append_same (p a b : List Char) :
    charsLt (p ++ a) (p ++ b) = charsLt a b := by
  induction p with
  | nil => rfl
  | cons c cs ih => rw [List.cons_append, List.cons_append, charsLt_cons_eq, ih]

theorem charsLt_irrefl (l : List Char) : charsLt l l = false := by
  induction l with
  | nil => rfl
  | cons a as ih => rw [charsLt_cons_eq, ih]

theorem charsLt_asymm : ∀ {a b : List Char},
    charsLt a b = true → charsLt b a = false
  | [], [] => by simp [charsLt]
  | [], _ :: _ => by intro _; rfl
  | _ :: _, [] => by intro h; exact absurd h (by simp [charsLt])
  | a :: as, b :: bs => by
    intro h
    unfold charsLt at h ⊢
    rcases lt_trichotomy a b with hab | hab | hab
    · rw [if_neg (asymm hab), if_pos hab]
    · subst hab
      rw [if_neg (lt_irrefl a), if_neg (lt_irrefl a)] at h ⊢
      exact charsLt_asymm h
    · rw [if_neg (asymm hab), if_pos hab] at h
      exact absurd h (by simp)

theorem charsLt_conn : ∀ {a b : List Char},
    charsLt a b = false → charsLt b a = false → a = b
  | [], [] => by intro _ _; rfl
  | [], _ :: _ => by intro h _; exact absurd h (by simp [charsLt])
  | _ :: _, [] => by intro _ h; exact absurd h (by simp [charsLt])
  | a :: as, b :: bs => by
    intro h1 h2
    unfold charsLt at h1 h2
    rcases lt_trichotomy a b with hab | hab | hab
    · rw [if_pos hab] at h1
      exact absurd h1 (by simp)
    · subst hab
      rw [if_neg (lt_irrefl a), if_neg (lt_irrefl a)] at h1 h2
      rw [charsLt_conn h1 h2]
    · rw [if_pos hab] at h2
      exact absurd h2 (by simp)

theorem charsLt_trans : ∀ {a b c : List Char},
    charsLt a b = true → charsLt b c = true → charsLt a c = true
  | [], b, [] => by intro _ h; exact absurd h (by cases b <;> simp [charsLt])
  | [], _, _ :: _ => by intro _ _; rfl
  | _ :: _, [], _ => by intro h _; exact absurd h (by simp [charsLt])
  | _ :: _, _ :: _, [] => by intro _ h; exact absurd h (by simp [charsLt])
  | a :: as, b :: bs, c :: cs => by
    intro h1 h2
    unfold charsLt at h1 h2 ⊢
    rcases lt_trichotomy a b with hab | hab | hab
    · rcases lt_trichotomy b c with hbc | hbc | hbc
      · rw [if_pos (lt_trans hab hbc)]
      · subst hbc
        rw [if_pos hab]
      · rw [if_neg (asymm hbc), if_pos hbc] at h2
        exact absurd h2 (by simp)
    · subst hab
      rcases lt_trichotomy a c with hbc | hbc | hbc
      · rw [if_pos hbc]
      · subst hbc
        rw [if_neg (lt_irrefl a), if_neg (lt_irrefl a)] at h1 h2 ⊢
        exact charsLt_trans h1 h2
      · rw [if_neg (asymm hbc), if_pos hbc] at h2
        exact absurd h2 (by simp)
    · rw [if_neg (asymm hab), if_pos hab] at h1
      exact absurd h1 (by simp)

/-! ## Helper lemmas: zero-padded decimal naming -/

theorem natDigitsAux_one (fuel n : Nat) (hf : 0 < fuel) (h : n < 10) :
    natDigitsAux fuel n = [digitChar n] := by
  cases fuel with
  | zero => omega
  | succ f => simp [natDigitsAux, h]

theorem natDigitsAux_two (fuel n : Nat) (hf : 1 < fuel) (h1 : 10 ≤ n)
    (h2 : n < 100) : natDigitsAux fuel n = [digitChar (n / 10), digitChar (n % 10)] := by
  cases fuel with
  | zero => omega
  | succ f =>
    have hn : ¬ n < 10 := by omega
    simp only [natDigitsAux, hn, if_false]
    rw [natDigitsAux_one f (n / 10) (by omega) (by omega)]
    rfl

theorem natDigitsAux_three (fuel n : Nat) (hf : 2 < fuel) (h1 : 100 ≤ n)
    (h2 : n < 1000) : natDigitsAux fuel n =
      [digitChar (n / 100), digitChar (n / 10 % 10), digitChar (n % 10)] := by
  cases fuel with
  | zero => omega
  | succ f =>
    have hn : ¬ n < 10 := by omega
    simp only [natDigitsAux, hn, if_false]
    rw [natDigitsAux_two f (n / 10) (by omega) (by omega) (by omega)]
    have h3 : n / 10 / 10 = n / 100 := by omega
    rw [h3]
    rfl

theorem padStart3_digits (n : Nat) (h : n < 1000) :
    (padStart (natToString n) 3 '0').data =
      [digitChar (n / 100), digitChar (n / 10 % 10), digitChar (n % 10)] := by
  unfold padStart natToString
  by_cases h1 : n < 10
  · rw [natDigitsAux_one (n + 1) n (by omega) h1]
    have e1 : n / 100 = 0 := by omega
    have e2 : n / 10 % 10 = 0 := by omega
    have e3 : n % 10 = n := by omega
    rw [e1, e2, e3]
    rfl
  · by_cases h2 : n < 100
    · rw [natDigitsAux_two (n + 1) n (by omega) (by omega) h2]
      have e1 : n / 100 = 0 := by omega
      have e2 : n / 10 % 10 = n / 10 := by omega
      rw [e1, e2]
      rfl
    · rw [natDigitsAux_three (n + 1) n (by omega) (by omega) h]
      rfl

theorem digitChar_strict_mono : ∀ x y : Fin 10, x.val < y.val →
    digitChar x.val < digitChar y.val := by decide

theorem digitChar_lt {a b : Nat} (hab : a < b) (hb : b < 10) :
    digitChar a < digitChar b :=
  digitChar_strict_mono ⟨a, by omega⟩ ⟨b, hb⟩ hab

theorem chunkFilename_data (i : Nat) :
    (chunkFilename i).data =
      "chunk-".data ++ ((padStart (natToString i) 3 '0').data ++ ".webm".data) := by
  unfold chunkFilename
  rw [String.data_append, String.data_append, List.append_assoc]

/-- C8 core: below the 3-digit padding bound, the chunk-file naming
order agrees with numeric index order. -/
theorem chunkFilename_lt {i j : Nat} (hij : i < j) (hj : j < 1000) :
    strLt (chunkFilename i) (chunkFilename j) = true := by
  unfold strLt
  rw [chunkFilename_data i, chunkFilename_data j, charsLt_append_same,
    padStart3_digits i (by omega), padStart3_digits j hj]
  simp only [List.cons_append, List.nil_append]
  rcases lt_trichotomy (i / 100) (j / 100) with h2 | h2 | h2
  · exact charsLt_cons_lt (digitChar_lt h2 (by omega)) _ _
  · rw [h2, charsLt_cons_eq]
    rcases lt_trichotomy (i / 10 % 10) (j / 10 % 10) with h1 | h1 | h1
    · exact charsLt_cons_lt (digitChar_lt h1 (by omega)) _ _
    · rw [h1, charsLt_cons_eq]
      have h0 : i % 10 < j % 10 := by omega
      exact charsLt_cons_lt (digitChar_lt h0 (by omega)) _ _
    · omega
  · omega

theorem strLt_ne {a b : String} (h : strLt a b = true) : a ≠ b := by
  intro he
  rw [he] at h
  unfold strLt at h
  rw [charsLt_irrefl] at h
  exact absurd h (by simp)

theorem chunkFilename_inj {i j : Nat} (hi : i < 1000) (hj : j < 1000)
    (h : chunkFilename i = chunkFilename j) : i = j := by
  rcases lt_trichotomy i j with hij | hij | hij
  · exact absurd h (strLt_ne (chunkFilename_lt hij hj))
  · exact hij
  · exact absurd h.symm (strLt_ne (chunkFilename_lt hij hi))

/-! ## Helper lemmas: the modelled JS sort orders chunk filenames -/

theorem strLeB_of_strLt {a b : String} (h : strLt a b = true) :
    strLeB a b = true := by
  unfold strLeB
  unfold strLt at h ⊢
  rw [charsLt_asymm h]
  rfl

theorem strLeB_total {a b : String} (h : strLeB a b = false) :
    strLeB b a = true := by
  unfold strLeB strLt at h ⊢
  simp only [Bool.not_eq_false'] at h
  rw [charsLt_asymm h]
  rfl

theorem strLeB_trans {a b c : String} (h1 : strLeB a b = true)
    (h2 : strLeB b c = true) : strLeB a c = true := by
  unfold strLeB strLt at h1 h2 ⊢
  simp only [Bool.not_eq_true'] at h1 h2
  simp only [Bool.not_eq_true']
  by_cases hca : charsLt c.data a.data = true
  · cases hbc : charsLt b.data c.data with
    | true =>
      rw [charsLt_trans hbc hca] at h1
      exact absurd h1 (by simp)
    | false =>
      have hcb := charsLt_conn h2 hbc
      rw [hcb] at hca
      rw [hca] at h1
      exact absurd h1 (by simp)
  · simpa using hca

theorem strLeB_antisymm {a b : String} (h1 : strLeB a b = true)
    (h2 : strLeB b a = true) : a = b := by
  unfold strLeB strLt at h1 h2
  simp only [Bool.not_eq_true'] at h1 h2
  have := charsLt_conn h2 h1
  cases a with
  | mk da =>
    cases b with
    | mk db => exact congrArg String.mk this

theorem pairwise_insertSorted (a : String) (l : List String)
    (h : List.Pairwise (fun x y => strLeB x y = true) l) :
    List.Pairwise (fun x y => strLeB x y = true) (insertSorted strLeB a l) := by
  induction l with
  | nil => simp [insertSorted]
  | cons b bs ih =>
    rcases List.pairwise_cons.1 h with ⟨hb, hbs⟩
    unfold insertSorted
    by_cases hab : strLeB a b = true
    · rw [if_pos hab]
      refine List.pairwise_cons.2 ⟨?_, h⟩
      intro x hx
      rcases List.mem_cons.1 hx with hxb | hxbs
      · rw [hxb]
        exact hab
      · exact strLeB_trans hab (hb x hxbs)
    · rw [if_neg hab]
      refine List.pairwise_cons.2 ⟨?_, ih hbs⟩
      intro x hx
      have hx2 := (insertSorted_perm strLeB a bs).mem_iff.1 hx
      rcases List.mem_cons.1 hx2 with hxa | hxbs
      · rw [hxa]
        exact strLeB_total (by simpa using hab)
      · exact hb x hxbs

theorem pairwise_sortBy (l : List String) :
    List.Pairwise (fun x y => strLeB x y = true) (sortBy strLeB l) := by
  induction l with
  | nil => simp [sortBy]
  | cons a as ih => exact pairwise_insertSorted a (sortBy strLeB as) ih

theorem sorted_perm_unique {l1 l2 : List String} (hp : l1.Perm l2)
    (h1 : List.Pairwise (fun x y => strLeB x y = true) l1)
    (h2 : List.Pairwise (fun x y => strLeB x y = true) l2) : l1 = l2 := by
  haveI : IsAntisymm String (fun x y => strLeB x y = true) :=
    ⟨fun _ _ => strLeB_antisymm⟩
  exact List.eq_of_perm_of_sorted hp h1 h2

/-! ## Helper lemmas: directory lookups under a permutation -/

theorem find?_unique {α : Type} {p : α → Bool} :
    ∀ {l : List α} {e : α}, e ∈ l → p e = true →
      (∀ x ∈ l, p x = true → x = e) → l.find? p = some e := by
  intro l
  induction l with
  | nil => intro e he _ _; exact absurd he (List.not_mem_nil e)
  | cons a as ih =>
    intro e he hp huniq
    cases hpa : p a with
    | true =>
      rw [List.find?_cons_of_pos as hpa]
      rw [huniq a (List.mem_cons_self a as) hpa]
    | false =>
      rw [List.find?_cons_of_neg as (by simp [hpa])]
      rcases List.mem_cons.1 he with hea | heas
      · rw [hea] at hp
        rw [hp] at hpa
        exact absurd hpa (by simp)
      · exact ih heas hp (fun x hx hpx => huniq x (List.mem_cons_of_mem a hx) hpx)

theorem readFile_perm_canonical (d : List (String × Bytes)) (N : Nat)
    (p : Nat → Bytes) (i : Nat) (hN : N ≤ 1000) (hi : i < N)
    (hperm : d.Perm ((List.range N).map (fun k => (chunkFilename k, p k)))) :
    FfmpegService.readFile d (chunkFilename i) = p i := by
  have hmem : (chunkFilename i, p i) ∈ d := by
    refine hperm.symm.subset ?_
    exact List.mem_map.2 ⟨i, List.mem_range.2 hi, rfl⟩
  have huniq : ∀ x ∈ d, (decide (x.1 = chunkFilename i)) = true →
      x = (chunkFilename i, p i) := by
    intro x hx hpx
    have hx2 := hperm.subset hx
    rcases List.mem_map.1 hx2 with ⟨k, hk, hxk⟩
    rw [List.mem_range] at hk
    simp only [decide_eq_true_eq] at hpx
    rw [← hxk] at hpx
    simp only at hpx
    have hki : k = i := chunkFilename_inj (by omega) (by omega) hpx
    rw [← hxk, hki]
  unfold FfmpegService.readFile
  rw [find?_unique hmem (by simp) huniq]
  rfl

theorem readFile_fsWrite_new (d : List (String × Bytes)) (name : String)
    (b : Bytes) (h : d.any (fun e => decide (e.1 = name)) = false) :
    FfmpegService.readFile (FfmpegService.fsWrite d name b) name = b := by
  unfold FfmpegService.fsWrite FfmpegService.readFile
  rw [if_neg (by simp [h]), List.find?_append]
  have hnone : d.find? (fun e => decide (e.1 = name)) = none := by
    rw [List.find?_eq_none]
    intro x hx
    simp only [List.any_eq_false] at h
    exact h x hx
  rw [hnone]
  simp

/-! ## Claim C8 -/

/-- C8: for indices below the fixed 3-digit padding bound, chunk
filenames sort lexicographically in numeric index order; consequently,
for a recording whose temp directory holds exactly the chunk files of
indices `0 .. N-1` (in any on-disk order, `N ≤ 1000`), the merge
engine concatenates the payloads in index order: `merged.webm`
contains payload 0, then payload 1, and so on. -/
theorem chunk_naming_merge_order :
    (∀ i j : Nat, i < j → j < 1000 →
      strLt (chunkFilename i) (chunkFilename j) = true) ∧
    (∀ (env : Env) (s : Sys) (rid : String) (N : Nat) (p : Nat → Bytes)
       (d : List (String × Bytes)),
      0 < N → N ≤ 1000 → env.mergeOk = true →
      s.files rid = some d →
      d.Perm ((List.range N).map (fun i => (chunkFilename i, p i))) →
      FfmpegService.mergeChunks env s rid "merged.webm" =
        .ok (mergedState s rid) ∧
      FfmpegService.readFile (((mergedState s rid).files rid).getD [])
        "merged.webm" = ((List.range N).map p).flatten) := by
  refine ⟨fun i j hij hj => chunkFilename_lt hij hj, ?_⟩
  intro env s rid N p d hN hN2 hm hfiles hperm
  have hgetD : (s.files rid).getD [] = d := by rw [hfiles]; rfl
  have hnames : (d.map (fun e => e.1)).Perm ((List.range N).map chunkFilename) := by
    have h1 := hperm.map (fun e => e.1)
    rw [List.map_map] at h1
    exact h1
  have hallchunk : ∀ nm ∈ d.map (fun e => e.1), isChunkFile nm = true := by
    intro nm hnm
    have := hnames.subset hnm
    rcases List.mem_map.1 this with ⟨k, _, hk⟩
    rw [← hk]
    exact isChunkFile_chunkFilename k
  have hfilter : (d.map (fun e => e.1)).filter isChunkFile = d.map (fun e => e.1) :=
    List.filter_eq_self.2 hallchunk
  have hpaircanon :
      List.Pairwise (fun x y => strLeB x y = true)
        ((List.range N).map chunkFilename) := by
    rw [List.pairwise_map]
    refine (List.pairwise_lt_range N).imp_of_mem ?_
    intro a b ha hb hab
    rw [List.mem_range] at ha hb
    exact strLeB_of_strLt (chunkFilename_lt hab (by omega))
  have hsorted : FfmpegService.getChunkFiles d = (List.range N).map chunkFilename := by
    unfold FfmpegService.getChunkFiles
    rw [hfilter]
    exact sorted_perm_unique ((sortBy_perm strLeB _).trans hnames)
      (pairwise_sortBy _) hpaircanon
  have hne : FfmpegService.getChunkFiles ((s.files rid).getD []) ≠ [] := by
    rw [hgetD, hsorted]
    simp only [ne_eq, List.map_eq_nil_iff, List.range_eq_nil]
    omega
  have hreads : (FfmpegService.getChunkFiles d).map (FfmpegService.readFile d) =
      (List.range N).map p := by
    rw [hsorted, List.map_map]
    refine List.map_congr_left ?_
    intro i hi
    rw [List.mem_range] at hi
    exact readFile_perm_canonical d N p i hN2 hi hperm
  have hnomerged : d.any (fun e => decide (e.1 = "merged.webm")) = false := by
    simp only [List.any_eq_false]
    intro x hx
    have hx2 := hperm.subset hx
    rcases List.mem_map.1 hx2 with ⟨k, _, hk⟩
    simp only [decide_eq_true_eq]
    rw [← hk]
    exact chunkFilename_ne_merged k
  refine ⟨mergeChunks_ok env s rid hne hm, ?_⟩
  have hmfiles : ((mergedState s rid).files rid).getD [] =
      FfmpegService.fsWrite d "merged.webm" (mergedBytes s rid) := by
    unfold mergedState
    simp only [eq_self_iff_true, if_true, Option.getD_some]
    rw [hgetD]
  rw [hmfiles, readFile_fsWrite_new _ _ _ hnomerged]
  unfold mergedBytes
  rw [hgetD, hreads]

/-- Witness for C8: payloads `[0]`, `[1]`, `[2]` whose files are
listed on disk out of index order (2, 0, 1) still merge in index
order. -/
theorem chunk_naming_merge_order_witness :
    FfmpegService.mergeChunks envOk (mkSys "c1" "r1" 3 [2,0,1]) "r1"
      "merged.webm" =
      .ok (mergedState (mkSys "c1" "r1" 3 [2,0,1]) "r1") ∧
    FfmpegService.readFile
      (((mergedState (mkSys "c1" "r1" 3 [2,0,1]) "r1").files "r1").getD [])
      "merged.webm" = ((List.range 3).map (fun i => [i])).flatten := by
  exact chunk_naming_merge_order.2 envOk (mkSys "c1" "r1" 3 [2,0,1]) "r1" 3
    (fun i => [i]) ([2,0,1].map (fun i => (chunkFilename i, [i])))
    (by decide) (by decide) rfl (by decide) (by decide)
